import Mathlib

/-!
Verification of the core of `combine_pdf.py`: the JPEG dimension scanner
`_jpeg_dimensions` and the pure PDF builder `_build_jpeg_pdf`.

Bytes are modelled as natural numbers (Python `bytes` elements).  Indexing
errors of Python are modelled with an explicit error constructor, so that
in-bounds behaviour of the scanner is a provable statement rather than an
assumption of the embedding.
-/

/-- Errors the scanner can produce: `indexError` models a Python
`IndexError` from an out-of-range byte access, `valueError` models the
`ValueError("Could not parse JPEG dimensions")` raised by the source. -/
inductive ScanErr where
  | indexError
  | valueError
deriving DecidableEq

/-- A checked byte read: `data[k]` in Python, which raises `IndexError`
when `k` is out of range. -/
def readByte (data : List Nat) (k : Nat) : Except ScanErr Nat :=
  if h : k < data.length then .ok data[k] else .error .indexError

/-- The scanning loop of `_jpeg_dimensions`, starting at cursor `i`:

    while i < len(data) - 8:
        if data[i] != 0xFF: break
        marker = data[i + 1]
        if marker in (0xC0, 0xC1, 0xC2):
            h = (data[i + 5] << 8) | data[i + 6]
            w = (data[i + 7] << 8) | data[i + 8]
            return w, h
        seg_len = (data[i + 2] << 8) | data[i + 3]
        i += 2 + seg_len
    raise ValueError(...)

Over Python ints, `i < len(data) - 8` is equivalent to `i + 8 < len(data)`. -/
def jpegScan (data : List Nat) (i : Nat) : Except ScanErr (Nat × Nat) :=
  if _hlt : i + 8 < data.length then
    match readByte data i with
    | .error e => .error e
    | .ok b =>
      if b ≠ 255 then .error .valueError
      else
        match readByte data (i + 1) with
        | .error e => .error e
        | .ok marker =>
          if marker = 192 ∨ marker = 193 ∨ marker = 194 then
            match readByte data (i + 5), readByte data (i + 6),
                  readByte data (i + 7), readByte data (i + 8) with
            | .ok b5, .ok b6, .ok b7, .ok b8 =>
                .ok ((b7 <<< 8) ||| b8, (b5 <<< 8) ||| b6)
            | .error e, _, _, _ => .error e
            | _, .error e, _, _ => .error e
            | _, _, .error e, _ => .error e
            | _, _, _, .error e => .error e
          else
            match readByte data (i + 2), readByte data (i + 3) with
            | .ok b2, .ok b3 => jpegScan data (i + 2 + ((b2 <<< 8) ||| b3))
            | .error e, _ => .error e
            | _, .error e => .error e
  else .error .valueError
termination_by data.length - i
decreasing_by omega

/-- `_jpeg_dimensions(data)`: skip the 2-byte signature and scan. -/
def jpegDimensions (data : List Nat) : Except ScanErr (Nat × Nat) :=
  jpegScan data 2

/-- The stopping condition of the scanning loop, as a boolean predicate on
the visited cursor positions: the scan fails at `i` iff fewer than 9 bytes
are available at the cursor (`¬ i + 8 < len`), or the byte at the expected
marker-prefix position is not `0xFF`, or the marker is not a start-of-frame
marker and the scan fails at the next cursor position. -/
def scanStops (data : List Nat) (i : Nat) : Bool :=
  if _hlt : i + 8 < data.length then
    if data.getD i 0 ≠ 255 then true
    else if data.getD (i + 1) 0 = 192 ∨ data.getD (i + 1) 0 = 193 ∨
            data.getD (i + 1) 0 = 194 then false
    else scanStops data (i + 2 + ((data.getD (i + 2) 0 <<< 8) ||| data.getD (i + 3) 0))
  else true
termination_by data.length - i
decreasing_by omega

/-- Big-endian byte pair composition: the source's `(hi << 8) | lo`
equals `256 * hi + lo` whenever `lo` fits in one byte. -/
theorem shift_or_eq (hi lo : Nat) (h : lo < 256) :
    (hi <<< 8) ||| lo = 256 * hi + lo := by
  have h256 : (256 : Nat) = 2 ^ 8 := by norm_num
  rw [Nat.shiftLeft_eq, h256]
  rw [Nat.mul_comm hi (2 ^ 8)]
  rw [← Nat.mul_add_lt_is_or (by omega : lo < 2 ^ 8)]

theorem readByte_eq_ok {data : List Nat} {k : Nat} (h : k < data.length) :
    readByte data k = Except.ok (data.getD k 0) := by
  rw [readByte, dif_pos h, List.getD_eq_getElem?_getD, List.getElem?_eq_getElem h]
  rfl

/-- One-step unfolding of the scan loop when at least 9 bytes remain. -/
theorem jpegScan_step {data : List Nat} {i : Nat} (hg : i + 8 < data.length) :
    jpegScan data i =
      if data.getD i 0 ≠ 255 then .error .valueError
      else if data.getD (i + 1) 0 = 192 ∨ data.getD (i + 1) 0 = 193 ∨
              data.getD (i + 1) 0 = 194 then
        .ok ((data.getD (i + 7) 0 <<< 8) ||| data.getD (i + 8) 0,
             (data.getD (i + 5) 0 <<< 8) ||| data.getD (i + 6) 0)
      else jpegScan data (i + 2 + ((data.getD (i + 2) 0 <<< 8) ||| data.getD (i + 3) 0)) := by
  conv_lhs => rw [jpegScan]
  rw [dif_pos hg,
      readByte_eq_ok (show i < data.length by omega),
      readByte_eq_ok (show i + 1 < data.length by omega),
      readByte_eq_ok (show i + 2 < data.length by omega),
      readByte_eq_ok (show i + 3 < data.length by omega),
      readByte_eq_ok (show i + 5 < data.length by omega),
      readByte_eq_ok (show i + 6 < data.length by omega),
      readByte_eq_ok (show i + 7 < data.length by omega),
      readByte_eq_ok (show i + 8 < data.length by omega)]

/-- The scan fails when fewer than 9 bytes remain at the cursor. -/
theorem jpegScan_stop {data : List Nat} {i : Nat} (hg : ¬ i + 8 < data.length) :
    jpegScan data i = .error .valueError := by
  rw [jpegScan, dif_neg hg]

theorem scanStops_step {data : List Nat} {i : Nat} (hg : i + 8 < data.length) :
    scanStops data i =
      if data.getD i 0 ≠ 255 then true
      else if data.getD (i + 1) 0 = 192 ∨ data.getD (i + 1) 0 = 193 ∨
              data.getD (i + 1) 0 = 194 then false
      else scanStops data (i + 2 + ((data.getD (i + 2) 0 <<< 8) ||| data.getD (i + 3) 0)) := by
  conv_lhs => rw [scanStops]
  rw [dif_pos hg]

theorem scanStops_stop {data : List Nat} {i : Nat} (hg : ¬ i + 8 < data.length) :
    scanStops data i = true := by
  rw [scanStops, dif_neg hg]

/-- The scan is total and two-valued: on every input and cursor it either
fails with `valueError` (exactly when `scanStops` holds) or returns a pair
(exactly when it does not). -/
theorem jpegScan_total (data : List Nat) : ∀ i : Nat,
    (scanStops data i = true → jpegScan data i = Except.error ScanErr.valueError) ∧
    (scanStops data i = false → ∃ w h, jpegScan data i = Except.ok (w, h)) := by
  have key : ∀ m i, data.length - i ≤ m →
      (scanStops data i = true → jpegScan data i = Except.error ScanErr.valueError) ∧
      (scanStops data i = false → ∃ w h, jpegScan data i = Except.ok (w, h)) := by
    intro m
    induction m with
    | zero =>
      intro i hm
      have hng : ¬ i + 8 < data.length := by omega
      refine ⟨fun _ => jpegScan_stop hng, fun hf => ?_⟩
      rw [scanStops_stop hng] at hf
      exact absurd hf (by simp)
    | succ m ih =>
      intro i hm
      by_cases hg : i + 8 < data.length
      · rw [jpegScan_step hg, scanStops_step hg]
        by_cases hb : data.getD i 0 ≠ 255
        · rw [if_pos hb, if_pos hb]
          exact ⟨fun _ => rfl, fun hf => absurd hf (by simp)⟩
        · rw [if_neg hb, if_neg hb]
          by_cases hs : data.getD (i + 1) 0 = 192 ∨ data.getD (i + 1) 0 = 193 ∨
              data.getD (i + 1) 0 = 194
          · rw [if_pos hs, if_pos hs]
            exact ⟨fun hf => absurd hf (by simp), fun _ => ⟨_, _, rfl⟩⟩
          · rw [if_neg hs, if_neg hs]
            exact ih (i + 2 + ((data.getD (i + 2) 0 <<< 8) ||| data.getD (i + 3) 0))
              (by omega)
      · refine ⟨fun _ => jpegScan_stop hg, fun hf => ?_⟩
        rw [scanStops_stop hg] at hf
        exact absurd hf (by simp)
  intro i
  exact key (data.length - i) i (by omega)

theorem getD_mem_lt {data : List Nat} (hb : ∀ b ∈ data, b < 256) {k : Nat}
    (hk : k < data.length) : data.getD k 0 < 256 := by
  rw [List.getD_eq_getElem?_getD, List.getElem?_eq_getElem hk]
  exact hb _ (List.getElem_mem hk)

/-- Whenever the scan returns a pair over genuine byte input, both
components fit in 16 bits. -/
theorem jpegScan_ok_bound (data : List Nat) (hb : ∀ b ∈ data, b < 256) :
    ∀ i w h, jpegScan data i = Except.ok (w, h) → w < 65536 ∧ h < 65536 := by
  have key : ∀ m i, data.length - i ≤ m → ∀ w h,
      jpegScan data i = Except.ok (w, h) → w < 65536 ∧ h < 65536 := by
    intro m
    induction m with
    | zero =>
      intro i hm w h heq
      rw [jpegScan_stop (by omega)] at heq
      exact absurd heq (by simp)
    | succ m ih =>
      intro i hm w h heq
      by_cases hg : i + 8 < data.length
      · rw [jpegScan_step hg] at heq
        by_cases hnb : data.getD i 0 ≠ 255
        · rw [if_pos hnb] at heq
          exact absurd heq (by simp)
        · rw [if_neg hnb] at heq
          by_cases hs : data.getD (i + 1) 0 = 192 ∨ data.getD (i + 1) 0 = 193 ∨
              data.getD (i + 1) 0 = 194
          · rw [if_pos hs] at heq
            have h5 := getD_mem_lt hb (show i + 5 < data.length by omega)
            have h6 := getD_mem_lt hb (show i + 6 < data.length by omega)
            have h7 := getD_mem_lt hb (show i + 7 < data.length by omega)
            have h8 := getD_mem_lt hb (show i + 8 < data.length by omega)
            have hw : w = (data.getD (i + 7) 0 <<< 8) ||| data.getD (i + 8) 0 := by
              injection heq with heq2
              exact (congrArg Prod.fst heq2).symm
            have hh : h = (data.getD (i + 5) 0 <<< 8) ||| data.getD (i + 6) 0 := by
              injection heq with heq2
              exact (congrArg Prod.snd heq2).symm
            rw [hw, hh, shift_or_eq _ _ h8, shift_or_eq _ _ h6]
            omega
          · rw [if_neg hs] at heq
            exact ih _ (by omega) w h heq
      · rw [jpegScan_stop hg] at heq
        exact absurd heq (by simp)
  intro i
  exact key (data.length - i) i (by omega)

/-- A non-start-of-frame marker segment: `0xFF`, the marker code, a
big-endian self-inclusive 16-bit length field, then the payload. -/
def mkSeg (s : Nat × List Nat) : List Nat :=
  255 :: s.1 :: ((s.2.length + 2) / 256) :: ((s.2.length + 2) % 256) :: s.2


theorem getD_append_add (u v : List Nat) (k : Nat) :
    (u ++ v).getD (u.length + k) 0 = v.getD k 0 := by
  induction u with
  | nil => simp
  | cons a t ih =>
    have harith : (a :: t).length + k = (t.length + k) + 1 := by
      simp only [List.length_cons]
      omega
    rw [harith, List.cons_append, List.getD_cons_succ]
    exact ih

theorem getD_append_zero (u v : List Nat) :
    (u ++ v).getD u.length 0 = v.getD 0 0 := by
  have := getD_append_add u v 0
  simpa using this

theorem getD_one (a b : Nat) (l : List Nat) : (a :: b :: l).getD 1 0 = b := rfl

theorem getD_two (a b c : Nat) (l : List Nat) : (a :: b :: c :: l).getD 2 0 = c := rfl

theorem getD_three (a b c d : Nat) (l : List Nat) :
    (a :: b :: c :: d :: l).getD 3 0 = d := rfl

theorem getD_five (a b c d e f : Nat) (l : List Nat) :
    (a :: b :: c :: d :: e :: f :: l).getD 5 0 = f := rfl

theorem getD_six (a b c d e f g : Nat) (l : List Nat) :
    (a :: b :: c :: d :: e :: f :: g :: l).getD 6 0 = g := rfl

theorem getD_seven (a b c d e f g h : Nat) (l : List Nat) :
    (a :: b :: c :: d :: e :: f :: g :: h :: l).getD 7 0 = h := rfl

theorem getD_eight (a b c d e f g h j : Nat) (l : List Nat) :
    (a :: b :: c :: d :: e :: f :: g :: h :: j :: l).getD 8 0 = j := rfl

/-- Scanning from the first position after a run of well-formed
non-start-of-frame segments whose length fields are correct reaches the
start-of-frame segment and returns (width, height) from its big-endian
dimension bytes. -/
theorem jpegScan_sof (c pr hh hl wh wl l1 l2 : Nat) (tail : List Nat)
    (hc : c = 192 ∨ c = 193 ∨ c = 194) (hhl : hl < 256) (hwl : wl < 256) :
    ∀ (segs : List (Nat × List Nat)) (u : List Nat),
      (∀ s ∈ segs, ¬ (s.1 = 192 ∨ s.1 = 193 ∨ s.1 = 194)) →
      (∀ s ∈ segs, s.2.length + 2 < 65536) →
      jpegScan (u ++ (segs.flatMap mkSeg ++
          (255 :: c :: l1 :: l2 :: pr :: hh :: hl :: wh :: wl :: tail))) u.length
        = Except.ok (256 * wh + wl, 256 * hh + hl) := by
  intro segs
  induction segs with
  | nil =>
    intro u _ _
    simp only [List.flatMap_nil, List.nil_append]
    have hg : u.length + 8 <
        (u ++ (255 :: c :: l1 :: l2 :: pr :: hh :: hl :: wh :: wl :: tail)).length := by
      simp only [List.length_append, List.length_cons]
      omega
    rw [jpegScan_step hg, getD_append_zero, getD_append_add u _ 1,
        getD_append_add u _ 5, getD_append_add u _ 6, getD_append_add u _ 7,
        getD_append_add u _ 8]
    rw [List.getD_cons_zero, getD_one, getD_five, getD_six, getD_seven, getD_eight]
    rw [if_neg (by simp), if_pos hc, shift_or_eq _ _ hwl, shift_or_eq _ _ hhl]
  | cons s rest ih =>
    intro u hcode hlen
    have hcs := hcode s (by simp)
    have hls := hlen s (by simp)
    simp only [List.flatMap_cons, List.append_assoc]
    have hg : u.length + 8 < (u ++ (mkSeg s ++ (rest.flatMap mkSeg ++
        (255 :: c :: l1 :: l2 :: pr :: hh :: hl :: wh :: wl :: tail)))).length := by
      simp only [mkSeg, List.length_append, List.length_cons]
      omega
    rw [jpegScan_step hg, getD_append_zero, getD_append_add u _ 1,
        getD_append_add u _ 2, getD_append_add u _ 3]
    simp only [mkSeg, List.cons_append]
    rw [List.getD_cons_zero, getD_one, getD_two, getD_three]
    rw [if_neg (by simp), if_neg hcs]
    have hseg : (((s.2.length + 2) / 256) <<< 8) ||| ((s.2.length + 2) % 256)
        = s.2.length + 2 := by
      rw [shift_or_eq _ _ (Nat.mod_lt _ (by omega))]
      omega
    rw [hseg]
    have hpos : u.length + 2 + (s.2.length + 2) = (u ++ mkSeg s).length := by
      simp only [mkSeg, List.length_append, List.length_cons]
      omega
    have hrw : u ++ (255 :: s.1 :: ((s.2.length + 2) / 256) ::
        ((s.2.length + 2) % 256) :: (s.2 ++ (rest.flatMap mkSeg ++
        (255 :: c :: l1 :: l2 :: pr :: hh :: hl :: wh :: wl :: tail))))
        = (u ++ mkSeg s) ++ (rest.flatMap mkSeg ++
        (255 :: c :: l1 :: l2 :: pr :: hh :: hl :: wh :: wl :: tail)) := by
      simp [mkSeg, List.append_assoc]
    rw [hpos, hrw]
    exact ih (u ++ mkSeg s) (fun t ht => hcode t (by simp [ht]))
      (fun t ht => hlen t (by simp [ht]))

/-- Claim C6: for every byte stream consisting of the 2-byte signature,
any number of non-start-of-frame marker segments with correct big-endian
self-inclusive 16-bit length fields, followed by a start-of-frame segment
(marker code 0xC0, 0xC1 or 0xC2) whose bytes after the 2-byte length and
1-byte precision fields encode height then width big-endian, the parser
returns the pair (width, height). -/
theorem c6_sof_frame_parse (segs : List (Nat × List Nat))
    (c pr hh hl wh wl l1 l2 : Nat) (tail data : List Nat)
    (hdata : data = 255 :: 216 :: (segs.flatMap mkSeg ++
        (255 :: c :: l1 :: l2 :: pr :: hh :: hl :: wh :: wl :: tail)))
    (hcode : ∀ s ∈ segs, ¬ (s.1 = 192 ∨ s.1 = 193 ∨ s.1 = 194))
    (hlen : ∀ s ∈ segs, s.2.length + 2 < 65536)
    (hc : c = 192 ∨ c = 193 ∨ c = 194) (hhl : hl < 256) (hwl : wl < 256) :
    jpegDimensions data = Except.ok (256 * wh + wl, 256 * hh + hl) := by
  subst hdata
  have h := jpegScan_sof c pr hh hl wh wl l1 l2 tail hc hhl hwl segs
    [255, 216] hcode hlen
  simpa [jpegDimensions] using h

/-- Witness for C6: the minimal well-formed single-frame stream with
width 100 and height 50 parses to (100, 50). -/
theorem c6_witness :
    (192 = 192 ∨ 192 = 193 ∨ 192 = 194) ∧ (50 : Nat) < 256 ∧ (100 : Nat) < 256 ∧
    jpegDimensions [255, 216, 255, 192, 0, 17, 8, 0, 50, 0, 100]
      = Except.ok (100, 50) := by
  refine ⟨by simp, by omega, by omega, ?_⟩
  have h := c6_sof_frame_parse [] 192 8 0 50 0 100 0 17 []
    [255, 216, 255, 192, 0, 17, 8, 0, 50, 0, 100]
    rfl (by simp) (by simp) (by simp) (by omega) (by omega)
  simpa using h

/-- Claim C7: the parser fails with the value error exactly when the byte
at an expected marker-prefix position is not 0xFF or the scan runs out of
buffer before a start-of-frame marker (the `scanStops` condition on the
visited cursor positions, started at cursor 2), and it never returns
dimensions in those cases. -/
theorem c7_parse_failure_characterization (data : List Nat) :
    (jpegDimensions data = Except.error ScanErr.valueError ↔
      scanStops data 2 = true) ∧
    (∀ w h, jpegDimensions data = Except.ok (w, h) → scanStops data 2 = false) := by
  have h := jpegScan_total data 2
  constructor
  · constructor
    · intro he
      by_cases hs : scanStops data 2
      · exact hs
      · obtain ⟨w, hgt, hok⟩ := h.2 (by simpa using hs)
        rw [jpegDimensions, hok] at he
        exact absurd he (by simp)
    · intro hs
      exact h.1 hs
  · intro w hgt hok
    by_cases hs : scanStops data 2
    · have he := h.1 hs
      rw [jpegDimensions, he] at hok
      exact absurd hok (by simp)
    · simpa using hs

/-- Witness for C7: the characterization instantiated at the empty buffer,
where the scan stops immediately and the parser fails. -/
theorem c7_witness :
    (jpegDimensions [] = Except.error ScanErr.valueError ↔
      scanStops [] 2 = true) ∧
    (∀ w h, jpegDimensions [] = Except.ok (w, h) → scanStops [] 2 = false) :=
  c7_parse_failure_characterization []

/-- Counterexample to claim C8: a syntactically well-formed start-of-frame
segment whose dimension fields are all zero makes the parser return the
pair (0, 0), which is not a pair of positive integers. -/
theorem c8_zero_counterexample :
    jpegDimensions [255, 216, 255, 192, 0, 17, 8, 0, 0, 0, 0]
      = Except.ok (0, 0) := by
  have h := jpegScan_sof 192 8 0 0 0 0 0 17 [] (by simp) (by omega) (by omega)
    [] [255, 216] (by simp) (by simp)
  simpa [jpegDimensions] using h

/-- Claim C8 (amended): whenever the parser returns rather than failing on
genuine byte input, the returned width and height are 16-bit values, below
65536; they are not guaranteed positive (zero dimension fields are
returned as-is). -/
theorem c8_dims_lt_two_pow_16 (data : List Nat) (hb : ∀ b ∈ data, b < 256) :
    ∀ w h, jpegDimensions data = Except.ok (w, h) → w < 65536 ∧ h < 65536 :=
  jpegScan_ok_bound data hb 2

/-- Witness for C8 (amended): the bound applied to a concrete valid
stream. -/
theorem c8_witness :
    (∀ b ∈ ([255, 216, 255, 192, 0, 17, 8, 0, 50, 0, 100] : List Nat), b < 256) ∧
    (∀ w h, jpegDimensions [255, 216, 255, 192, 0, 17, 8, 0, 50, 0, 100]
      = Except.ok (w, h) → w < 65536 ∧ h < 65536) :=
  ⟨by decide, c8_dims_lt_two_pow_16 _ (by decide)⟩

/-- Claim C10: on every input byte sequence the scanner performs only
in-bounds reads — it never produces the index error — and therefore either
returns a pair or fails with the value error. -/
theorem c10_no_index_error (data : List Nat) :
    jpegDimensions data ≠ Except.error ScanErr.indexError ∧
    (jpegDimensions data = Except.error ScanErr.valueError ∨
      ∃ w h, jpegDimensions data = Except.ok (w, h)) := by
  have h := jpegScan_total data 2
  by_cases hs : scanStops data 2
  · have he := h.1 hs
    refine ⟨?_, Or.inl he⟩
    rw [jpegDimensions, he]
    simp
  · obtain ⟨w, hgt, hok⟩ := h.2 (by simpa using hs)
    refine ⟨?_, Or.inr ⟨w, hgt, hok⟩⟩
    rw [jpegDimensions, hok]
    simp

/-- Byte encoding of the source's ASCII string pieces (every formatted
string in `_build_jpeg_pdf` is ASCII, and the binary-comment header bytes
are Latin-1 code points, so `Char.toNat` is the byte value). -/
def encodeStr (s : String) : List Nat := s.data.map Char.toNat

theorem encodeStr_append (a b : String) :
    encodeStr (a ++ b) = encodeStr a ++ encodeStr b := by
  simp [encodeStr]

/-- A page: the JPEG payload bytes and the pixel width and height. -/
abbrev Page := List Nat × Nat × Nat

/-- The mutable state of `_build_jpeg_pdf`: the output `bytearray` and the
`offsets` dict (association list in insertion order; keys are written at
most once). -/
structure BuildState where
  buf : List Nat
  offsets : List (Nat × Nat)

/-- Serialized form of one indirect object:
`f"{num} 0 obj\n" + data + b"\nendobj\n"`. -/
def objBytes (num : Nat) (data : List Nat) : List Nat :=
  encodeStr (toString num ++ " 0 obj\n") ++ data ++ encodeStr "\nendobj\n"

/-- `add_obj(num, data)`: record the current buffer length as the object's
offset, then append the serialized object. -/
def addObj (st : BuildState) (num : Nat) (data : List Nat) : BuildState :=
  { buf := st.buf ++ objBytes num data,
    offsets := st.offsets ++ [(num, st.buf.length)] }

/-- `b"%PDF-1.4\n%\xe2\xe3\xcf\xd3\n"`. -/
def pdfHeader : List Nat := encodeStr "%PDF-1.4\n%\xe2\xe3\xcf\xd3\n"

def catalogData (pagesNum : Nat) : List Nat :=
  encodeStr ("<<\n/Type /Catalog\n/Pages " ++ toString pagesNum ++ " 0 R\n>>")

/-- `" ".join(f"{pn} 0 R" for pn in page_nums)`. -/
def kidsStr (pageNums : List Nat) : String :=
  String.intercalate " " (pageNums.map (fun pn => toString pn ++ " 0 R"))

def pagesDictData (pageNums : List Nat) (n : Nat) : List Nat :=
  encodeStr ("<<\n/Type /Pages\n/Kids [" ++ kidsStr pageNums ++ "]\n/Count "
    ++ toString n ++ "\n>>")

def imgObjData (jpeg : List Nat) (w h : Nat) : List Nat :=
  encodeStr ("<<\n/Type /XObject\n/Subtype /Image\n/Width " ++ toString w
    ++ "\n/Height " ++ toString h
    ++ "\n/ColorSpace /DeviceRGB\n/BitsPerComponent 8\n/Filter /DCTDecode\n/Length "
    ++ toString jpeg.length ++ "\n>>\nstream\n") ++ jpeg ++ encodeStr "\nendstream"

/-- `f"q {w} 0 0 {h} 0 0 cm /Im Do Q"`. -/
def contentOps (w h : Nat) : String :=
  "q " ++ toString w ++ " 0 0 " ++ toString h ++ " 0 0 cm /Im Do Q"

def contentObjData (w h : Nat) : List Nat :=
  encodeStr ("<<\n/Length " ++ toString (encodeStr (contentOps w h)).length
    ++ "\n>>\nstream\n") ++ encodeStr (contentOps w h) ++ encodeStr "\nendstream"

def pageObjData (pagesNum imgNum contentNum w h : Nat) : List Nat :=
  encodeStr ("<<\n/Type /Page\n/Parent " ++ toString pagesNum
    ++ " 0 R\n/MediaBox [0 0 " ++ toString w ++ " " ++ toString h
    ++ "]\n/Resources <<\n/XObject << /Im " ++ toString imgNum
    ++ " 0 R >>\n>>\n/Contents " ++ toString contentNum ++ " 0 R\n>>")

/-- One iteration of the page loop for zero-based index `i`: emit the
image XObject (id `3+3i`), the content stream (id `4+3i`) and the page
dictionary (id `5+3i`). -/
def addPage (st : BuildState) (i : Nat) (p : Page) : BuildState :=
  addObj (addObj (addObj st (3 + 3 * i) (imgObjData p.1 p.2.1 p.2.2))
      (4 + 3 * i) (contentObjData p.2.1 p.2.2))
    (5 + 3 * i) (pageObjData 2 (3 + 3 * i) (4 + 3 * i) p.2.1 p.2.2)

/-- The `for i, (jpeg, w, h) in enumerate(pages)` loop, with `i` the
running index. -/
def addPages : BuildState → Nat → List Page → BuildState
  | st, _, [] => st
  | st, i, p :: rest => addPages (addPage st i p) (i + 1) rest

/-- `page_nums = [5 + 3*i for i in range(n)]`. -/
def pageNums (n : Nat) : List Nat := (List.range n).map (fun i => 5 + 3 * i)

/-- The object-emission phase: header, catalog (id 1), page tree (id 2),
then the per-page objects. -/
def objPhase (pages : List Page) : BuildState :=
  addPages
    (addObj (addObj { buf := pdfHeader, offsets := [] } 1 (catalogData 2))
      2 (pagesDictData (pageNums pages.length) pages.length))
    0 pages

/-- `max(offsets)`: the maximum key of the offsets dict (the dict is never
empty when this is evaluated, so the 0 default is never the result). -/
def maxKey (l : List (Nat × Nat)) : Nat := (l.map Prod.fst).foldl max 0

/-- `offsets.get(num, 0)`. -/
def getOff (l : List (Nat × Nat)) (num : Nat) : Nat := (l.lookup num).getD 0

/-- `f"{off:010d}"`: decimal, left-padded with zeros to width 10. -/
def pad10 (n : Nat) : String :=
  String.mk (List.replicate (10 - (toString n).length) '0') ++ toString n

/-- One cross-reference line: `f"{off:010d} 00000 n \n"`. -/
def xrefLine (off : Nat) : List Nat := encodeStr (pad10 off ++ " 00000 n \n")

/-- The cross-reference entries: the free-list head for identifier 0,
then one line per identifier from 1 to `maxNum` in ascending order. -/
def xrefEntries (offsets : List (Nat × Nat)) (maxNum : Nat) : List (List Nat) :=
  encodeStr "0000000000 65535 f \n" ::
    (List.range' 1 maxNum).map (fun num => xrefLine (getOff offsets num))

/-- The cross-reference section appended after the objects. -/
def xrefSection (offsets : List (Nat × Nat)) (maxNum : Nat) : List Nat :=
  encodeStr "xref\n" ++ encodeStr ("0 " ++ toString (maxNum + 1) ++ "\n")
    ++ (xrefEntries offsets maxNum).flatten

/-- `b"trailer\n" + f"<<\n/Size {max_num+1}\n/Root 1 0 R\n>>\n"`. -/
def trailerSection (maxNum : Nat) : List Nat :=
  encodeStr ("trailer\n<<\n/Size " ++ toString (maxNum + 1) ++ "\n/Root 1 0 R\n>>\n")

/-- `_build_jpeg_pdf(pages)`: objects, cross-reference table, trailer,
startxref pointer, end-of-file marker. -/
def buildJpegPdf (pages : List Page) : List Nat :=
  (objPhase pages).buf
    ++ xrefSection (objPhase pages).offsets (maxKey (objPhase pages).offsets)
    ++ trailerSection (maxKey (objPhase pages).offsets)
    ++ encodeStr "startxref\n"
    ++ encodeStr (toString (objPhase pages).buf.length ++ "\n")
    ++ encodeStr "%%EOF\n"

/-- Identifiers recorded by the page loop starting at running index `j`:
`3+3j, 4+3j, 5+3j` for the first page, then the rest. -/
def idList : Nat → Nat → List Nat
  | _, 0 => []
  | j, n + 1 => (3 + 3 * j) :: (4 + 3 * j) :: (5 + 3 * j) :: idList (j + 1) n

theorem addPages_offsets : ∀ (ps : List Page) (st : BuildState) (j : Nat),
    ((addPages st j ps).offsets).map Prod.fst
      = st.offsets.map Prod.fst ++ idList j ps.length := by
  intro ps
  induction ps with
  | nil =>
    intro st j
    simp [addPages, idList]
  | cons p rest ih =>
    intro st j
    simp only [addPages]
    rw [ih]
    simp [addPage, addObj, idList, List.append_assoc]

/-- The byte run the page loop appends, starting at running index `j`. -/
def pagesChunk : Nat → List Page → List Nat
  | _, [] => []
  | j, p :: rest =>
      objBytes (3 + 3 * j) (imgObjData p.1 p.2.1 p.2.2)
        ++ objBytes (4 + 3 * j) (contentObjData p.2.1 p.2.2)
        ++ objBytes (5 + 3 * j) (pageObjData 2 (3 + 3 * j) (4 + 3 * j) p.2.1 p.2.2)
        ++ pagesChunk (j + 1) rest

theorem addPages_buf : ∀ (ps : List Page) (st : BuildState) (j : Nat),
    (addPages st j ps).buf = st.buf ++ pagesChunk j ps := by
  intro ps
  induction ps with
  | nil =>
    intro st j
    simp [addPages, pagesChunk]
  | cons p rest ih =>
    intro st j
    simp only [addPages]
    rw [ih]
    simp [addPage, addObj, pagesChunk, List.append_assoc]

theorem objPhase_buf (pages : List Page) :
    (objPhase pages).buf
      = pdfHeader ++ objBytes 1 (catalogData 2)
        ++ objBytes 2 (pagesDictData (pageNums pages.length) pages.length)
        ++ pagesChunk 0 pages := by
  rw [objPhase, addPages_buf]
  simp [addObj, List.append_assoc]

theorem objPhase_offsets (pages : List Page) :
    (objPhase pages).offsets.map Prod.fst = 1 :: 2 :: idList 0 pages.length := by
  rw [objPhase, addPages_offsets]
  simp [addObj]

theorem idList_eq_range' : ∀ (n j : Nat), idList j n = List.range' (3 + 3 * j) (3 * n) := by
  intro n
  induction n with
  | zero =>
    intro j
    simp [idList]
  | succ n ih =>
    intro j
    simp only [idList]
    rw [ih (j + 1)]
    rw [show 3 * (n + 1) = 3 * n + 1 + 1 + 1 from by omega]
    rw [List.range'_succ, List.range'_succ, List.range'_succ]
    rw [show 3 + 3 * j + 1 = 4 + 3 * j from by omega]
    rw [show 4 + 3 * j + 1 = 5 + 3 * j from by omega]
    rw [show 5 + 3 * j + 1 = 3 + 3 * (j + 1) from by omega]

theorem objPhase_keys_range' (pages : List Page) :
    (objPhase pages).offsets.map Prod.fst
      = List.range' 1 (3 * pages.length + 2) := by
  rw [objPhase_offsets, idList_eq_range']
  rw [show 3 * pages.length + 2 = 3 * pages.length + 1 + 1 from by omega]
  rw [List.range'_succ, List.range'_succ]

theorem foldl_max_range' : ∀ m : Nat, (List.range' 1 m).foldl max 0 = m := by
  intro m
  induction m with
  | zero => simp
  | succ m ih =>
    rw [List.range'_concat, List.foldl_append]
    simp [ih]
    omega

theorem maxKey_objPhase (pages : List Page) :
    maxKey (objPhase pages).offsets = 3 * pages.length + 2 := by
  rw [maxKey, objPhase_keys_range', foldl_max_range']

theorem infix_extend_left {l m : List Nat} (x : List Nat) (h : l <:+: m) :
    l <:+: x ++ m := by
  obtain ⟨s, t, rfl⟩ := h
  exact ⟨x ++ s, t, by simp [List.append_assoc]⟩

theorem infix_extend_right {l m : List Nat} (y : List Nat) (h : l <:+: m) :
    l <:+: m ++ y := by
  obtain ⟨s, t, rfl⟩ := h
  exact ⟨s, t ++ y, by simp [List.append_assoc]⟩

theorem pagesChunk_contains : ∀ (ps : List Page) (j i : Nat) (hi : i < ps.length),
    objBytes (3 + 3 * (j + i)) (imgObjData ps[i].1 ps[i].2.1 ps[i].2.2)
      <:+: pagesChunk j ps ∧
    objBytes (4 + 3 * (j + i)) (contentObjData ps[i].2.1 ps[i].2.2)
      <:+: pagesChunk j ps ∧
    objBytes (5 + 3 * (j + i))
        (pageObjData 2 (3 + 3 * (j + i)) (4 + 3 * (j + i)) ps[i].2.1 ps[i].2.2)
      <:+: pagesChunk j ps := by
  intro ps
  induction ps with
  | nil =>
    intro j i hi
    exact absurd hi (by simp)
  | cons p rest ih =>
    intro j i hi
    cases i with
    | zero =>
      simp only [pagesChunk, List.getElem_cons_zero, Nat.add_zero]
      refine ⟨?_, ?_, ?_⟩
      · have h := List.infix_append ([] : List Nat)
          (objBytes (3 + 3 * j) (imgObjData p.1 p.2.1 p.2.2))
          (objBytes (4 + 3 * j) (contentObjData p.2.1 p.2.2)
            ++ objBytes (5 + 3 * j) (pageObjData 2 (3 + 3 * j) (4 + 3 * j) p.2.1 p.2.2)
            ++ pagesChunk (j + 1) rest)
        simpa [List.append_assoc] using h
      · simp [List.append_assoc]
      · have h := List.infix_append
          (objBytes (3 + 3 * j) (imgObjData p.1 p.2.1 p.2.2)
            ++ objBytes (4 + 3 * j) (contentObjData p.2.1 p.2.2))
          (objBytes (5 + 3 * j) (pageObjData 2 (3 + 3 * j) (4 + 3 * j) p.2.1 p.2.2))
          (pagesChunk (j + 1) rest)
        simpa [List.append_assoc] using h
    | succ k =>
      have hk : k < rest.length := by simpa using hi
      have h := ih (j + 1) k hk
      rw [show (j + 1) + k = j + (k + 1) from by omega] at h
      simp only [List.getElem_cons_succ]
      refine ⟨?_, ?_, ?_⟩
      · have := infix_extend_left
          (objBytes (3 + 3 * j) (imgObjData p.1 p.2.1 p.2.2)
            ++ objBytes (4 + 3 * j) (contentObjData p.2.1 p.2.2)
            ++ objBytes (5 + 3 * j) (pageObjData 2 (3 + 3 * j) (4 + 3 * j) p.2.1 p.2.2))
          h.1
        simpa [pagesChunk, List.append_assoc] using this
      · have := infix_extend_left
          (objBytes (3 + 3 * j) (imgObjData p.1 p.2.1 p.2.2)
            ++ objBytes (4 + 3 * j) (contentObjData p.2.1 p.2.2)
            ++ objBytes (5 + 3 * j) (pageObjData 2 (3 + 3 * j) (4 + 3 * j) p.2.1 p.2.2))
          h.2.1
        simpa [pagesChunk, List.append_assoc] using this
      · have := infix_extend_left
          (objBytes (3 + 3 * j) (imgObjData p.1 p.2.1 p.2.2)
            ++ objBytes (4 + 3 * j) (contentObjData p.2.1 p.2.2)
            ++ objBytes (5 + 3 * j) (pageObjData 2 (3 + 3 * j) (4 + 3 * j) p.2.1 p.2.2))
          h.2.2
        simpa [pagesChunk, List.append_assoc] using this

theorem pageObjData_split (pagesNum imgNum contentNum w h : Nat) :
    pageObjData pagesNum imgNum contentNum w h
      = encodeStr ("<<\n/Type /Page\n/Parent " ++ toString pagesNum ++ " 0 R\n")
        ++ encodeStr ("/MediaBox [0 0 " ++ toString w ++ " " ++ toString h ++ "]")
        ++ encodeStr ("\n/Resources <<\n/XObject << /Im " ++ toString imgNum
            ++ " 0 R >>\n>>\n/Contents " ++ toString contentNum ++ " 0 R\n>>") := by
  simp only [pageObjData, encodeStr_append, List.append_assoc]
  rw [show encodeStr " 0 R\n/MediaBox [0 0 "
      = encodeStr " 0 R\n" ++ encodeStr "/MediaBox [0 0 " from rfl]
  rw [show encodeStr "]\n/Resources <<\n/XObject << /Im "
      = encodeStr "]" ++ encodeStr "\n/Resources <<\n/XObject << /Im " from rfl]
  simp only [List.append_assoc]

theorem imgObjData_split (jpeg : List Nat) (w h : Nat) :
    imgObjData jpeg w h
      = encodeStr "<<\n/Type /XObject\n/Subtype /Image\n"
        ++ encodeStr ("/Width " ++ toString w ++ "\n/Height " ++ toString h ++ "\n")
        ++ (encodeStr ("/ColorSpace /DeviceRGB\n/BitsPerComponent 8\n/Filter /DCTDecode\n/Length "
              ++ toString jpeg.length ++ "\n>>\nstream\n")
            ++ jpeg ++ encodeStr "\nendstream") := by
  simp only [imgObjData, encodeStr_append, List.append_assoc]
  rw [show encodeStr "<<\n/Type /XObject\n/Subtype /Image\n/Width "
      = encodeStr "<<\n/Type /XObject\n/Subtype /Image\n" ++ encodeStr "/Width " from rfl]
  rw [show encodeStr "\n/ColorSpace /DeviceRGB\n/BitsPerComponent 8\n/Filter /DCTDecode\n/Length "
      = encodeStr "\n"
        ++ encodeStr "/ColorSpace /DeviceRGB\n/BitsPerComponent 8\n/Filter /DCTDecode\n/Length "
      from rfl]
  simp only [List.append_assoc]

theorem trailerSection_split (m : Nat) :
    trailerSection m
      = encodeStr "trailer\n<<\n" ++ encodeStr ("/Size " ++ toString (m + 1))
        ++ encodeStr "\n/Root 1 0 R\n>>\n" := by
  simp only [trailerSection, encodeStr_append, List.append_assoc]
  rw [show encodeStr "trailer\n<<\n/Size "
      = encodeStr "trailer\n<<\n" ++ encodeStr "/Size " from rfl]
  simp only [List.append_assoc]

theorem chunk_infix_build {l : List Nat} (pages : List Page)
    (hl : l <:+: pagesChunk 0 pages) : l <:+: buildJpegPdf pages := by
  obtain ⟨s, t, hst⟩ := hl
  refine ⟨pdfHeader ++ objBytes 1 (catalogData 2)
      ++ objBytes 2 (pagesDictData (pageNums pages.length) pages.length) ++ s,
    t ++ xrefSection (objPhase pages).offsets (maxKey (objPhase pages).offsets)
      ++ trailerSection (maxKey (objPhase pages).offsets)
      ++ encodeStr "startxref\n"
      ++ encodeStr (toString (objPhase pages).buf.length ++ "\n")
      ++ encodeStr "%%EOF\n", ?_⟩
  rw [buildJpegPdf, objPhase_buf, ← hst]
  simp [List.append_assoc]

/-- Claim C4: the integer written after the `startxref` keyword equals the
byte offset within the returned buffer at which the `xref` keyword begins:
the buffer ends with `startxref\n{o}\n%%EOF\n` for an offset `o` such that
the bytes at position `o` begin with `xref\n`. -/
theorem c4_startxref_roundtrip (pages : List Page) :
    ∃ o : Nat,
      encodeStr ("startxref\n" ++ toString o ++ "\n%%EOF\n") <:+ buildJpegPdf pages ∧
      encodeStr "xref\n" <+: (buildJpegPdf pages).drop o := by
  refine ⟨(objPhase pages).buf.length, ?_, ?_⟩
  · refine ⟨(objPhase pages).buf
        ++ xrefSection (objPhase pages).offsets (maxKey (objPhase pages).offsets)
        ++ trailerSection (maxKey (objPhase pages).offsets), ?_⟩
    simp only [buildJpegPdf, encodeStr_append, List.append_assoc]
    rw [show encodeStr "\n%%EOF\n" = encodeStr "\n" ++ encodeStr "%%EOF\n" from rfl]
  · rw [buildJpegPdf]
    simp only [List.append_assoc]
    rw [List.drop_left]
    rw [xrefSection]
    simp only [List.append_assoc]
    exact List.prefix_append _ _

/-- Witness for C4: the round-trip offset property at the empty input. -/
theorem c4_witness :
    ∃ o : Nat,
      encodeStr ("startxref\n" ++ toString o ++ "\n%%EOF\n") <:+ buildJpegPdf [] ∧
      encodeStr "xref\n" <+: (buildJpegPdf []).drop o :=
  c4_startxref_roundtrip []

/-- Claim C2: identifiers are allocated per the layout policy — catalog 1,
page tree 2, then per page index `i` the triple `3+3i`, `4+3i`, `5+3i`
(the `idList` triples) — forming the dense gap-free range `1..3n+2`, with
maximum identifier `3n+2`, and the trailer declares `/Size (3n+3)`. -/
theorem c2_layout_policy (pages : List Page) (_hne : pages ≠ []) :
    (objPhase pages).offsets.map Prod.fst = 1 :: 2 :: idList 0 pages.length ∧
    (objPhase pages).offsets.map Prod.fst = List.range' 1 (3 * pages.length + 2) ∧
    maxKey (objPhase pages).offsets = 3 * pages.length + 2 ∧
    encodeStr ("/Size " ++ toString (3 * pages.length + 3))
      <:+: buildJpegPdf pages := by
  refine ⟨objPhase_offsets pages, objPhase_keys_range' pages, maxKey_objPhase pages, ?_⟩
  rw [buildJpegPdf, maxKey_objPhase, trailerSection_split]
  rw [show 3 * pages.length + 2 + 1 = 3 * pages.length + 3 from by omega]
  refine ⟨(objPhase pages).buf
      ++ xrefSection (objPhase pages).offsets (3 * pages.length + 2)
      ++ encodeStr "trailer\n<<\n",
    encodeStr "\n/Root 1 0 R\n>>\n" ++ encodeStr "startxref\n"
      ++ encodeStr (toString (objPhase pages).buf.length ++ "\n")
      ++ encodeStr "%%EOF\n", ?_⟩
  simp [List.append_assoc]

/-- Witness for C2: the three-page example of the specification — eleven
objects, `/Size 12`, and the page with zero-based index 1 receiving
identifiers 6, 7, 8. -/
theorem c2_witness :
    (([([], 10, 10), ([], 20, 30), ([], 5, 5)] : List Page) ≠ []) ∧
    (objPhase [([], 10, 10), ([], 20, 30), ([], 5, 5)]).offsets.map Prod.fst
      = [1, 2, 3, 4, 5, 6, 7, 8, 9, 10, 11] ∧
    maxKey (objPhase [([], 10, 10), ([], 20, 30), ([], 5, 5)]).offsets = 11 ∧
    encodeStr "/Size 12"
      <:+: buildJpegPdf [([], 10, 10), ([], 20, 30), ([], 5, 5)] := by
  have h := c2_layout_policy [([], 10, 10), ([], 20, 30), ([], 5, 5)]
    (by simp)
  refine ⟨by simp, ?_, ?_, ?_⟩
  · rw [h.1]
    rfl
  · rw [h.2.2.1]
    rfl
  · have h4 := h.2.2.2
    have e : encodeStr ("/Size "
        ++ toString (3 * ([([], 10, 10), ([], 20, 30), ([], 5, 5)] : List Page).length + 3))
        = encodeStr "/Size 12" := rfl
    rw [e] at h4
    exact h4

/-- Claim C3: the cross-reference table has exactly one entry per
identifier from 0 to `/Size - 1` (that is, `maxKey + 1` entries), in
ascending identifier order (the entry at position `k` is the line for
identifier `k`), with identifier 0 the free-list head; every identifier
recorded in the offsets table is within `1..maxKey` and so has its entry. -/
theorem c3_xref_complete (pages : List Page) :
    (xrefEntries (objPhase pages).offsets (maxKey (objPhase pages).offsets)).length
      = maxKey (objPhase pages).offsets + 1 ∧
    (xrefEntries (objPhase pages).offsets (maxKey (objPhase pages).offsets)).head?
      = some (encodeStr "0000000000 65535 f \n") ∧
    (∀ k, 1 ≤ k → k ≤ maxKey (objPhase pages).offsets →
      (xrefEntries (objPhase pages).offsets (maxKey (objPhase pages).offsets))[k]?
        = some (xrefLine (getOff (objPhase pages).offsets k))) ∧
    (∀ p ∈ (objPhase pages).offsets,
      1 ≤ p.1 ∧ p.1 ≤ maxKey (objPhase pages).offsets) ∧
    xrefSection (objPhase pages).offsets (maxKey (objPhase pages).offsets)
      = encodeStr "xref\n"
        ++ encodeStr ("0 " ++ toString (maxKey (objPhase pages).offsets + 1) ++ "\n")
        ++ (xrefEntries (objPhase pages).offsets
            (maxKey (objPhase pages).offsets)).flatten := by
  refine ⟨?_, rfl, ?_, ?_, rfl⟩
  · simp [xrefEntries]
  · intro k h1 h2
    obtain ⟨j, rfl⟩ : ∃ j, k = j + 1 := ⟨k - 1, by omega⟩
    simp only [xrefEntries, List.getElem?_cons_succ, List.getElem?_map]
    rw [List.getElem?_range' 1 1 (show j < maxKey (objPhase pages).offsets by omega)]
    rw [show 1 + 1 * j = j + 1 from by omega]
    rfl
  · intro p hp
    have hmem : p.1 ∈ (objPhase pages).offsets.map Prod.fst :=
      List.mem_map_of_mem Prod.fst hp
    rw [objPhase_keys_range'] at hmem
    rw [maxKey_objPhase]
    have hb := List.mem_range'_1.mp hmem
    omega

/-- Witness for C3: the cross-reference completeness instantiated at a
concrete one-page input. -/
theorem c3_witness :
    (xrefEntries (objPhase [([], 7, 9)]).offsets
        (maxKey (objPhase [([], 7, 9)]).offsets)).length
      = maxKey (objPhase [([], 7, 9)]).offsets + 1 ∧
    (xrefEntries (objPhase [([], 7, 9)]).offsets
        (maxKey (objPhase [([], 7, 9)]).offsets)).head?
      = some (encodeStr "0000000000 65535 f \n") ∧
    (∀ k, 1 ≤ k → k ≤ maxKey (objPhase [([], 7, 9)]).offsets →
      (xrefEntries (objPhase [([], 7, 9)]).offsets
          (maxKey (objPhase [([], 7, 9)]).offsets))[k]?
        = some (xrefLine (getOff (objPhase [([], 7, 9)]).offsets k))) ∧
    (∀ p ∈ (objPhase [([], 7, 9)]).offsets,
      1 ≤ p.1 ∧ p.1 ≤ maxKey (objPhase [([], 7, 9)]).offsets) ∧
    xrefSection (objPhase [([], 7, 9)]).offsets
        (maxKey (objPhase [([], 7, 9)]).offsets)
      = encodeStr "xref\n"
        ++ encodeStr ("0 " ++ toString (maxKey (objPhase [([], 7, 9)]).offsets + 1) ++ "\n")
        ++ (xrefEntries (objPhase [([], 7, 9)]).offsets
            (maxKey (objPhase [([], 7, 9)]).offsets)).flatten :=
  c3_xref_complete [([], 7, 9)]

/-- Claim C5: for every page `(jpeg, w, h)` of the input, the emitted page
dictionary's MediaBox is `[0 0 w h]`, matching the image resource's
declared `/Width w` and `/Height h`, and the content stream is exactly
`q w 0 0 h 0 0 cm /Im Do Q`; all three serialized objects of that page
(ids `3+3i`, `4+3i`, `5+3i`) appear in the returned buffer. -/
theorem c5_page_geometry (pages : List Page) (i : Nat) (hi : i < pages.length)
    (jpeg : List Nat) (w h : Nat) (hp : pages[i] = (jpeg, w, h)) :
    encodeStr ("/MediaBox [0 0 " ++ toString w ++ " " ++ toString h ++ "]")
      <:+: pageObjData 2 (3 + 3 * i) (4 + 3 * i) w h ∧
    encodeStr ("/Width " ++ toString w ++ "\n/Height " ++ toString h ++ "\n")
      <:+: imgObjData jpeg w h ∧
    contentObjData w h
      = encodeStr ("<<\n/Length "
          ++ toString (encodeStr ("q " ++ toString w ++ " 0 0 " ++ toString h
              ++ " 0 0 cm /Im Do Q")).length ++ "\n>>\nstream\n")
        ++ encodeStr ("q " ++ toString w ++ " 0 0 " ++ toString h ++ " 0 0 cm /Im Do Q")
        ++ encodeStr "\nendstream" ∧
    objBytes (3 + 3 * i) (imgObjData jpeg w h) <:+: buildJpegPdf pages ∧
    objBytes (4 + 3 * i) (contentObjData w h) <:+: buildJpegPdf pages ∧
    objBytes (5 + 3 * i) (pageObjData 2 (3 + 3 * i) (4 + 3 * i) w h)
      <:+: buildJpegPdf pages := by
  have hc := pagesChunk_contains pages 0 i hi
  simp only [Nat.zero_add, hp] at hc
  refine ⟨?_, ?_, rfl, ?_, ?_, ?_⟩
  · rw [pageObjData_split]
    exact List.infix_append _ _ _
  · rw [imgObjData_split]
    exact List.infix_append _ _ _
  · exact chunk_infix_build pages hc.1
  · exact chunk_infix_build pages hc.2.1
  · exact chunk_infix_build pages hc.2.2

/-- Witness for C5: the geometry property at a concrete one-page input
with width 10 and height 20. -/
theorem c5_witness :
    (0 : Nat) < ([(([1, 2] : List Nat), 10, 20)] : List Page).length ∧
    (encodeStr ("/MediaBox [0 0 " ++ toString (10 : Nat) ++ " "
        ++ toString (20 : Nat) ++ "]")
      <:+: pageObjData 2 (3 + 3 * 0) (4 + 3 * 0) 10 20 ∧
    encodeStr ("/Width " ++ toString (10 : Nat) ++ "\n/Height "
        ++ toString (20 : Nat) ++ "\n")
      <:+: imgObjData [1, 2] 10 20 ∧
    contentObjData 10 20
      = encodeStr ("<<\n/Length "
          ++ toString (encodeStr ("q " ++ toString (10 : Nat) ++ " 0 0 "
              ++ toString (20 : Nat) ++ " 0 0 cm /Im Do Q")).length ++ "\n>>\nstream\n")
        ++ encodeStr ("q " ++ toString (10 : Nat) ++ " 0 0 " ++ toString (20 : Nat)
            ++ " 0 0 cm /Im Do Q")
        ++ encodeStr "\nendstream" ∧
    objBytes (3 + 3 * 0) (imgObjData [1, 2] 10 20)
      <:+: buildJpegPdf [(([1, 2] : List Nat), 10, 20)] ∧
    objBytes (4 + 3 * 0) (contentObjData 10 20)
      <:+: buildJpegPdf [(([1, 2] : List Nat), 10, 20)] ∧
    objBytes (5 + 3 * 0) (pageObjData 2 (3 + 3 * 0) (4 + 3 * 0) 10 20)
      <:+: buildJpegPdf [(([1, 2] : List Nat), 10, 20)]) :=
  ⟨by simp, c5_page_geometry [(([1, 2] : List Nat), 10, 20)] 0 (by simp) [1, 2] 10 20 rfl⟩

set_option maxRecDepth 4000 in
/-- Counterexample to claim C1: given the empty page sequence the
assembler does not fail — it returns a complete buffer (header prefix,
a page tree declaring `/Count 0`, a trailer declaring `/Size 3`, and the
end-of-file marker). -/
theorem c1_empty_counterexample :
    buildJpegPdf [] ≠ [] ∧
    encodeStr "%PDF-1.4\n" <+: buildJpegPdf [] ∧
    encodeStr "/Count 0" <:+: buildJpegPdf [] ∧
    encodeStr "/Size 3" <:+: buildJpegPdf [] ∧
    encodeStr "%%EOF\n" <:+ buildJpegPdf [] := by
  refine ⟨by decide, by decide, by decide, by decide, by decide⟩

/-- Claim C1 (amended): `_build_jpeg_pdf` has no empty-input guard and
never fails: for every input, including the empty sequence, it returns a
complete buffer — format header, a page-tree object for the full page
count, and the end-of-file marker.  The empty-input failure of the source
lives in the caller `combine_via_sips`, which returns `False` without
invoking the assembler when no pages were converted. -/
theorem c1_assembler_total (pages : List Page) :
    pdfHeader <+: buildJpegPdf pages ∧
    encodeStr "%%EOF\n" <:+ buildJpegPdf pages ∧
    objBytes 2 (pagesDictData (pageNums pages.length) pages.length)
      <:+: buildJpegPdf pages := by
  refine ⟨?_, ?_, ?_⟩
  · rw [buildJpegPdf, objPhase_buf]
    simp only [List.append_assoc]
    exact List.prefix_append _ _
  · refine ⟨(objPhase pages).buf
        ++ xrefSection (objPhase pages).offsets (maxKey (objPhase pages).offsets)
        ++ trailerSection (maxKey (objPhase pages).offsets)
        ++ encodeStr "startxref\n"
        ++ encodeStr (toString (objPhase pages).buf.length ++ "\n"), ?_⟩
    rw [buildJpegPdf]
  · refine ⟨pdfHeader ++ objBytes 1 (catalogData 2),
      pagesChunk 0 pages
        ++ xrefSection (objPhase pages).offsets (maxKey (objPhase pages).offsets)
        ++ trailerSection (maxKey (objPhase pages).offsets)
        ++ encodeStr "startxref\n"
        ++ encodeStr (toString (objPhase pages).buf.length ++ "\n")
        ++ encodeStr "%%EOF\n", ?_⟩
    rw [buildJpegPdf, objPhase_buf]
    simp [List.append_assoc]

/-- Claim C9: the assembler is deterministic — it is a pure function of
its argument, so two invocations on identical input yield byte-identical
buffers. -/
theorem c9_deterministic (p q : List Page) (hpq : p = q) :
    buildJpegPdf p = buildJpegPdf q := by
  rw [hpq]

/-- Witness for C9: two invocations on the same concrete input. -/
theorem c9_witness :
    (([(([3] : List Nat), 4, 5)] : List Page) = [(([3] : List Nat), 4, 5)]) ∧
    buildJpegPdf [(([3] : List Nat), 4, 5)] = buildJpegPdf [(([3] : List Nat), 4, 5)] :=
  ⟨rfl, c9_deterministic [(([3] : List Nat), 4, 5)] [(([3] : List Nat), 4, 5)] rfl⟩

/-- Witness for C10: the in-bounds guarantee at a concrete input. -/
theorem c10_witness :
    jpegDimensions [255, 216, 1, 2, 3] ≠ Except.error ScanErr.indexError ∧
    (jpegDimensions [255, 216, 1, 2, 3] = Except.error ScanErr.valueError ∨
      ∃ w h, jpegDimensions [255, 216, 1, 2, 3] = Except.ok (w, h)) :=
  c10_no_index_error [255, 216, 1, 2, 3]
